import Mathlib

/- Shallow embedding of the Change-of-Value (COV) subscription and
   delivery engine of samples/COVMixin.py: change criteria, subscription
   timers and time-remaining, the per-destination confirmed-notification
   queue of COVApplicationMixin, and subscription cancellation. -/

namespace COVSpec

/-! ### Change criteria (COVCriteria, GenericCriteria, COVIncrementCriteria) -/

/-- One iteration of the loop in COVCriteria._check_criteria: compare the
current value of one tracked property against the snapshot; if it differs,
record the change and overwrite the snapshot entry with the current value. -/
def checkStep {P V : Type} [DecidableEq P] [DecidableEq V]
    (values : P → V) (acc : Bool × (P → V)) (p : P) : Bool × (P → V) :=
  if values p ≠ acc.2 p then (true, Function.update acc.2 p (values p))
  else acc

/-- COVCriteria._check_criteria: fold over the tracked property names,
starting from something_changed = false and the current snapshot map,
returning the something_changed flag and the updated snapshot. -/
def checkCriteria {P V : Type} [DecidableEq P] [DecidableEq V]
    (tracked : List P) (values snap : P → V) : Bool × (P → V) :=
  tracked.foldl (checkStep values) (false, snap)

/-- Characterization of the fold inside COVCriteria._check_criteria: the
returned flag is the initial flag or-ed with whether any tracked property
differs from its snapshot, and the returned snapshot overwrites exactly
the differing tracked properties with their current values. -/
theorem checkCriteria_foldl_eq {P V : Type} [DecidableEq P] [DecidableEq V]
    (values : P → V) :
    ∀ (tracked : List P) (b : Bool) (snap : P → V),
      List.foldl (checkStep values) (b, snap) tracked =
        (b || tracked.any (fun p => decide (values p ≠ snap p)),
         fun q => if q ∈ tracked ∧ values q ≠ snap q then values q else snap q) := by
  intro tracked
  induction tracked with
  | nil =>
    intro b snap
    refine Prod.ext (by simp) ?_
    funext q
    simp
  | cons p rest ih =>
    intro b snap
    rw [List.foldl_cons]
    by_cases hp : values p = snap p
    · have hstep : checkStep values (b, snap) p = (b, snap) := by
        simp [checkStep, hp]
      rw [hstep, ih]
      refine Prod.ext ?_ ?_
      · simp [hp]
      · funext q
        by_cases hq : q = p
        · subst hq
          simp [hp]
        · simp only [List.mem_cons]
          by_cases hqr : q ∈ rest ∧ values q ≠ snap q
          · simp [hqr, hqr.1, hqr.2]
          · have : ¬ ((q = p ∨ q ∈ rest) ∧ values q ≠ snap q) := by
              rintro ⟨hqp | hqm, hne⟩
              · exact hq hqp
              · exact hqr ⟨hqm, hne⟩
            simp only [if_neg hqr, if_neg this]
    · have hstep : checkStep values (b, snap) p =
          (true, Function.update snap p (values p)) := by
        simp [checkStep, hp]
      rw [hstep, ih]
      refine Prod.ext ?_ ?_
      · simp [hp]
      · funext q
        by_cases hq : q = p
        · subst hq
          simp [Function.update_same, hp]
        · have hupd : Function.update snap p (values p) q = snap q :=
            Function.update_noteq hq _ _
          simp only [hupd, List.mem_cons]
          by_cases hqr : q ∈ rest ∧ values q ≠ snap q
          · simp [hqr, hqr.1, hqr.2]
          · have : ¬ ((q = p ∨ q ∈ rest) ∧ values q ≠ snap q) := by
              rintro ⟨hqp | hqm, hne⟩
              · exact hq hqp
              · exact hqr ⟨hqm, hne⟩
            simp only [if_neg hqr, if_neg this]

/-- Numeric part of COVIncrementCriteria._check_criteria: the present
value is reported changed iff it moved down to at most snapshot minus
increment or up to at least snapshot plus increment. -/
def covIncrementValueChanged (snapPV curPV inc : ℚ) : Bool :=
  decide (curPV ≤ snapPV - inc) || decide (snapPV + inc ≤ curPV)

/-- Result of COVIncrementCriteria._check_criteria: the something_changed
flag and the updated snapshot of presentValue and statusFlags. -/
structure IncResult (F : Type) where
  changed : Bool
  snapPV : ℚ
  snapFlags : F
deriving DecidableEq

/-- COVIncrementCriteria._check_criteria: the present value is compared
against the snapshot with the covIncrement deadband, statusFlags by exact
match; each snapshot entry is overwritten only when its own check fired,
and the overall flag is the disjunction of the two checks. -/
def covIncrementCheck {F : Type} [DecidableEq F] (snapPV : ℚ) (snapFlags : F)
    (curPV : ℚ) (curFlags : F) (inc : ℚ) : IncResult F :=
  { changed := covIncrementValueChanged snapPV curPV inc || decide (curFlags ≠ snapFlags)
    snapPV := if covIncrementValueChanged snapPV curPV inc then curPV else snapPV
    snapFlags := if curFlags ≠ snapFlags then curFlags else snapFlags }

/-- C5: COVCriteria._check_criteria (GenericCriteria) reports changed iff
some tracked property's current value differs from its snapshot, and the
updated snapshot overwrites exactly the differing tracked properties with
their current values, leaving all others untouched. -/
theorem generic_criteria_spec {P V : Type} [DecidableEq P] [DecidableEq V]
    (tracked : List P) (values snap : P → V) :
    ((checkCriteria tracked values snap).1 = true ↔
      ∃ p ∈ tracked, values p ≠ snap p) ∧
    (checkCriteria tracked values snap).2 =
      fun q => if q ∈ tracked ∧ values q ≠ snap q then values q else snap q := by
  unfold checkCriteria
  rw [checkCriteria_foldl_eq]
  constructor
  · simp [List.any_eq_true]
  · rfl

/-- C4: COVIncrementCriteria._check_criteria reports the numeric property
changed iff current is at most snapshot minus increment or at least
snapshot plus increment (boundaries inclusive), checks statusFlags by
exact match independently, reports changed overall iff either check
fired, and updates only the snapshots of properties that individually
changed; in particular with snapshot 10 and increment 2 the values 12 and
8 report changed while 11.999 with unchanged flags does not. -/
theorem increment_criteria_spec :
    (∀ (F : Type) [DecidableEq F] (s c i : ℚ) (sf cf : F),
      ((covIncrementCheck s sf c cf i).changed = true ↔
        ((c ≤ s - i ∨ s + i ≤ c) ∨ cf ≠ sf)) ∧
      (covIncrementCheck s sf c cf i).snapPV =
        (if c ≤ s - i ∨ s + i ≤ c then c else s) ∧
      (covIncrementCheck s sf c cf i).snapFlags =
        (if cf ≠ sf then cf else sf)) ∧
    (covIncrementCheck (10 : ℚ) (0 : ℕ) 12 0 2).changed = true ∧
    (covIncrementCheck (10 : ℚ) (0 : ℕ) 8 0 2).changed = true ∧
    (covIncrementCheck (10 : ℚ) (0 : ℕ) (11999 / 1000) 0 2).changed = false := by
  refine ⟨?_, by norm_num [covIncrementCheck, covIncrementValueChanged],
    by norm_num [covIncrementCheck, covIncrementValueChanged],
    by norm_num [covIncrementCheck, covIncrementValueChanged]⟩
  intro F _ s c i sf cf
  refine ⟨?_, ?_, rfl⟩
  · simp [covIncrementCheck, covIncrementValueChanged]
  · by_cases h : c ≤ s - i ∨ s + i ≤ c
    · have hb : covIncrementValueChanged s c i = true := by
        rcases h with h1 | h1 <;> simp [covIncrementValueChanged, h1]
      simp [covIncrementCheck, hb, if_pos h]
    · have hb : covIncrementValueChanged s c i = false := by
        push_neg at h
        simp [covIncrementValueChanged, not_le.mpr h.1, not_le.mpr h.2]
      push_neg at h
      simp [covIncrementCheck, hb, not_le.mpr h.1, not_le.mpr h.2]

/-- C3 counterexample: with covIncrement 0 and the current value equal to
the snapshot, the increment criteria report the numeric property changed,
while the exact-match decision of COVCriteria._check_criteria on the same
single property reports no change. -/
theorem increment_zero_counterexample :
    covIncrementValueChanged 0 0 0 = true ∧
    (checkCriteria [0] (fun _ : ℕ => (0 : ℚ)) (fun _ => 0)).1 = false := by
  constructor
  · norm_num [covIncrementValueChanged]
  · unfold checkCriteria
    rw [checkCriteria_foldl_eq]
    simp

/-- C3 amended: with covIncrement 0 the numeric check of the increment
criteria reports changed for every current value (the condition current
at most snapshot or current at least snapshot always holds), so it agrees
with the exact-match decision of COVCriteria._check_criteria on the
numeric property exactly when the current value differs from the
snapshot, and additionally fires when they are equal. -/
theorem increment_zero_always_changed (s c : ℚ) :
    covIncrementValueChanged s c 0 = true ∧
    (covIncrementValueChanged s c 0 =
        (checkCriteria [0] (fun _ : ℕ => c) (fun _ => s)).1 ↔ c ≠ s) := by
  have hch : covIncrementValueChanged s c 0 = true := by
    rcases le_total c s with h | h <;>
      simp [covIncrementValueChanged, h]
  have hgen : (checkCriteria [0] (fun _ : ℕ => c) (fun _ => s)).1 =
      decide (c ≠ s) := by
    unfold checkCriteria
    rw [checkCriteria_foldl_eq]
    simp
  refine ⟨hch, ?_⟩
  rw [hch, hgen]
  constructor
  · intro h
    simpa using h.symm
  · intro h
    simp [h]

/-- Helper: with a positive increment, a present value equal to the
snapshot is inside the deadband, so the numeric check does not fire. -/
lemma covIncrementValueChanged_self (c i : ℚ) (hi : 0 < i) :
    covIncrementValueChanged c c i = false := by
  have h1 : ¬ (c ≤ c - i) := by linarith
  have h2 : ¬ (c + i ≤ c) := by linarith
  simp [covIncrementValueChanged, h1, h2]

/-- C6 counterexample: for the increment criteria with covIncrement 0,
starting from a state where the current values already equal the
snapshot and calling _check_criteria twice with no intervening value
change, both calls report changed, contradicting the claim that both
calls return false. -/
theorem evaluate_twice_counterexample :
    (covIncrementCheck (0 : ℚ) (0 : ℕ) 0 0 0).changed = true ∧
    (covIncrementCheck (covIncrementCheck (0 : ℚ) (0 : ℕ) 0 0 0).snapPV
      (covIncrementCheck (0 : ℚ) (0 : ℕ) 0 0 0).snapFlags 0 0 0).changed = true := by
  norm_num [covIncrementCheck, covIncrementValueChanged]

/-- C6 amended: for the exact-match criteria in every state, a
_check_criteria call made on the snapshot produced by a previous call,
with no intervening value change, returns false and leaves the snapshot
unchanged (so all later calls also return false); the same holds for the
increment criteria whenever covIncrement is positive.  With covIncrement
0 the increment criteria report changed on every call. -/
theorem evaluate_idempotent_no_report :
    (∀ (P V : Type) [DecidableEq P] [DecidableEq V]
        (tracked : List P) (values snap0 : P → V),
      (checkCriteria tracked values (checkCriteria tracked values snap0).2).1 = false ∧
      (checkCriteria tracked values (checkCriteria tracked values snap0).2).2 =
        (checkCriteria tracked values snap0).2) ∧
    (∀ (F : Type) [DecidableEq F] (s c i : ℚ) (sf cf : F), 0 < i →
      (covIncrementCheck (covIncrementCheck s sf c cf i).snapPV
          (covIncrementCheck s sf c cf i).snapFlags c cf i).changed = false ∧
      (covIncrementCheck (covIncrementCheck s sf c cf i).snapPV
          (covIncrementCheck s sf c cf i).snapFlags c cf i).snapPV =
        (covIncrementCheck s sf c cf i).snapPV ∧
      (covIncrementCheck (covIncrementCheck s sf c cf i).snapPV
          (covIncrementCheck s sf c cf i).snapFlags c cf i).snapFlags =
        (covIncrementCheck s sf c cf i).snapFlags) := by
  constructor
  · intro P V instP instV tracked values snap0
    have hc1 : checkCriteria tracked values snap0 =
        (List.any tracked (fun p => decide (values p ≠ snap0 p)),
         fun q => if q ∈ tracked ∧ values q ≠ snap0 q then values q else snap0 q) := by
      unfold checkCriteria
      rw [checkCriteria_foldl_eq]
      simp
    set s1 : P → V :=
      fun q => if q ∈ tracked ∧ values q ≠ snap0 q then values q else snap0 q with hs1def
    have hsnap1 : (checkCriteria tracked values snap0).2 = s1 := by rw [hc1]
    have hkey : ∀ p ∈ tracked, values p = s1 p := by
      intro p hp
      by_cases hv : values p = snap0 p
      · have hcond : ¬ (p ∈ tracked ∧ values p ≠ snap0 p) := fun h => h.2 hv
        simp only [hs1def, if_neg hcond]
        exact hv
      · simp only [hs1def, if_pos (And.intro hp hv)]
    rw [hsnap1]
    constructor
    · unfold checkCriteria
      rw [checkCriteria_foldl_eq]
      simp only [Bool.false_or]
      rw [List.any_eq_false]
      intro p hp
      simp [hkey p hp]
    · unfold checkCriteria
      rw [checkCriteria_foldl_eq]
      funext q
      by_cases hq : q ∈ tracked
      · have hcond : ¬ (q ∈ tracked ∧ values q ≠ s1 q) := fun h => h.2 (hkey q hq)
        simp [hcond]
      · have hcond : ¬ (q ∈ tracked ∧ values q ≠ s1 q) := fun h => hq h.1
        simp [hcond]
  · intro F instF s c i sf cf hi
    have hr2 : covIncrementValueChanged (covIncrementCheck s sf c cf i).snapPV c i = false := by
      by_cases hvc : covIncrementValueChanged s c i = true
      · have hpv : (covIncrementCheck s sf c cf i).snapPV = c := by
          simp [covIncrementCheck, hvc]
        rw [hpv]
        exact covIncrementValueChanged_self c i hi
      · have hvcf : covIncrementValueChanged s c i = false := by
          simpa using hvc
        have hpv : (covIncrementCheck s sf c cf i).snapPV = s := by
          simp [covIncrementCheck, hvcf]
        rw [hpv]
        exact hvcf
    have hfl : cf = (covIncrementCheck s sf c cf i).snapFlags := by
      by_cases h : cf = sf <;> simp [covIncrementCheck, h]
    refine ⟨?_, ?_, ?_⟩
    · show (covIncrementValueChanged (covIncrementCheck s sf c cf i).snapPV c i
          || decide (cf ≠ (covIncrementCheck s sf c cf i).snapFlags)) = false
      rw [hr2, ← hfl]
      simp
    · show (if covIncrementValueChanged (covIncrementCheck s sf c cf i).snapPV c i
          then c else (covIncrementCheck s sf c cf i).snapPV) =
        (covIncrementCheck s sf c cf i).snapPV
      rw [hr2]
      simp
    · show (if cf ≠ (covIncrementCheck s sf c cf i).snapFlags then cf
          else (covIncrementCheck s sf c cf i).snapFlags) =
        (covIncrementCheck s sf c cf i).snapFlags
      rw [← hfl]
      simp

/-- C6 witness: the amended statement at concrete inputs, with the
positivity hypothesis discharged at increment 1. -/
theorem evaluate_idempotent_witness :
    (checkCriteria [0] (fun _ : ℕ => (1 : ℤ))
      (checkCriteria [0] (fun _ : ℕ => (1 : ℤ)) (fun _ => 0)).2).1 = false ∧
    (covIncrementCheck (covIncrementCheck (0 : ℚ) (0 : ℕ) 5 0 1).snapPV
      (covIncrementCheck (0 : ℚ) (0 : ℕ) 5 0 1).snapFlags 5 0 1).changed = false :=
  ⟨(evaluate_idempotent_no_report.1 ℕ ℤ [0] (fun _ => 1) (fun _ => 0)).1,
   (evaluate_idempotent_no_report.2 ℕ 0 5 1 0 0 (by norm_num)).1⟩

/-! ### Subscription timers and time remaining -/

/-- Python int() applied to a real-valued difference: truncation toward
zero, i.e. floor for nonnegative arguments and ceiling for negative
ones.  Times are modelled as rationals. -/
def pyInt (q : ℚ) : ℤ :=
  if 0 ≤ q then ⌊q⌋ else ⌈q⌉

/-- Timer state of a Subscription: the stored lifetime attribute, the
scheduled task time of its OneShotTask, and whether the task is
currently scheduled. -/
structure SubTimer where
  lifetime : ℕ
  taskTime : ℚ
  isScheduled : Bool
deriving DecidableEq

/-- OneShotTask.install_task with a relative delta: schedule the task at
the current time plus delta. -/
def installTask (s : SubTimer) (now : ℚ) (delta : ℕ) : SubTimer :=
  { s with taskTime := now + (delta : ℚ), isScheduled := true }

/-- OneShotTask.suspend_task: unschedule the task. -/
def suspendTask (s : SubTimer) : SubTimer :=
  { s with isScheduled := false }

/-- Subscription.__init__ timer behavior: store the lifetime and, when it
is nonzero, schedule the expiry task that many seconds ahead. -/
def newSubscription (lifetime : ℕ) (now : ℚ) : SubTimer :=
  let s : SubTimer := ⟨lifetime, 0, false⟩
  if lifetime ≠ 0 then installTask s now lifetime else s

/-- Subscription.renew_subscription: suspend the task iff it is
scheduled, then reinstall it iff the new lifetime is nonzero.  The stored
lifetime attribute is not assigned. -/
def renewSubscription (s : SubTimer) (lifetime : ℕ) (now : ℚ) : SubTimer :=
  let s1 := if s.isScheduled then suspendTask s else s
  if lifetime ≠ 0 then installTask s1 now lifetime else s1

/-- Time-remaining computation shared by
COVObjectMixin._send_cov_notifications and
ActiveCOVSubscriptions.ReadProperty: 0 for a zero stored lifetime,
otherwise the truncated difference between the scheduled task time and
the current time, bumped to 1 only when that truncation is exactly 0. -/
def timeRemaining (s : SubTimer) (now : ℚ) : ℤ :=
  if s.lifetime = 0 then 0
  else
    let t := pyInt (s.taskTime - now)
    if t = 0 then 1 else t

/-- Helper: truncation toward zero of a rational strictly greater than -1
is nonnegative. -/
lemma pyInt_nonneg {q : ℚ} (h : -1 < q) : 0 ≤ pyInt q := by
  unfold pyInt
  split
  · exact Int.floor_nonneg.mpr (by assumption)
  · have hc : (-1 : ℤ) < ⌈q⌉ := by
      rw [Int.lt_ceil]
      push_cast
      exact h
    omega

/-- C2 counterexample: a subscription created with lifetime 5 at time 0
is still registered at time 7 if its expiry task has not yet been
dispatched, and the time-remaining computation then reports -2, not a
value of at least 1 as the claim states for nonzero lifetimes. -/
theorem time_remaining_counterexample :
    (newSubscription 5 0).lifetime ≠ 0 ∧
    timeRemaining (newSubscription 5 0) 7 = -2 := by
  have h1 : newSubscription 5 0 = ⟨5, 5, true⟩ := by
    norm_num [newSubscription, installTask]
  rw [h1]
  refine ⟨by norm_num, ?_⟩
  have h2 : ((5 : ℚ) - 7) = ((-2 : ℤ) : ℚ) := by norm_num
  have h3 : pyInt ((5 : ℚ) - 7) = -2 := by
    rw [pyInt, h2]
    rw [if_neg (by norm_num)]
    exact Int.ceil_intCast (-2)
  show (if (5 : ℕ) = 0 then (0 : ℤ) else if pyInt ((5 : ℚ) - 7) = 0 then 1
    else pyInt ((5 : ℚ) - 7)) = -2
  rw [h3]
  norm_num

/-- C2 amended: at the moment a notification is built or the
active-subscriptions snapshot is read, a subscription with stored
lifetime 0 reports timeRemaining 0; one with nonzero stored lifetime
reports at least 1 provided the computation runs less than one second
past the scheduled expiry time (taskTime minus now above -1); at or
beyond one second past the deadline, with the expiry task not yet
dispatched, the reported value is the truncated difference, which is
nonpositive. -/
theorem time_remaining_spec (s : SubTimer) (now : ℚ) :
    (s.lifetime = 0 → timeRemaining s now = 0) ∧
    (s.lifetime ≠ 0 → -1 < s.taskTime - now → 1 ≤ timeRemaining s now) := by
  constructor
  · intro h
    simp [timeRemaining, h]
  · intro h h2
    have h3 : 0 ≤ pyInt (s.taskTime - now) := pyInt_nonneg h2
    show 1 ≤ (if s.lifetime = 0 then (0 : ℤ)
      else if pyInt (s.taskTime - now) = 0 then 1 else pyInt (s.taskTime - now))
    rw [if_neg h]
    by_cases h4 : pyInt (s.taskTime - now) = 0
    · rw [if_pos h4]
    · rw [if_neg h4]
      omega

/-- C2 witness: the amended statement at concrete subscriptions, with
the hypotheses discharged. -/
theorem time_remaining_witness :
    timeRemaining (newSubscription 0 0) 5 = 0 ∧
    1 ≤ timeRemaining (newSubscription 5 0) 3 := by
  constructor
  · exact (time_remaining_spec (newSubscription 0 0) 5).1 (by norm_num [newSubscription])
  · exact (time_remaining_spec (newSubscription 5 0) 3).2
      (by norm_num [newSubscription, installTask])
      (by norm_num [newSubscription, installTask])

/-- C7: renewal reschedules the expiry timer from the new lifetime but
never assigns the stored lifetime attribute, so a subscription created
with lifetime 0 and renewed with lifetime 5 at time 10 has a live expiry
task at time 15, yet the time-remaining computation at time 12 still
takes the zero-lifetime branch and reports 0 (never expires) instead of
a value derived from the new lifetime. -/
theorem renewal_stale_lifetime_bug :
    (renewSubscription (newSubscription 0 0) 5 10).isScheduled = true ∧
    (renewSubscription (newSubscription 0 0) 5 10).taskTime = 15 ∧
    (renewSubscription (newSubscription 0 0) 5 10).lifetime = 0 ∧
    timeRemaining (renewSubscription (newSubscription 0 0) 5 10) 12 = 0 := by
  have h1 : renewSubscription (newSubscription 0 0) 5 10 = ⟨0, 15, true⟩ := by
    norm_num [renewSubscription, newSubscription, installTask, suspendTask]
  rw [h1]
  refine ⟨rfl, rfl, rfl, ?_⟩
  norm_num [timeRemaining]

/-! ### COVApplicationMixin confirmed-notification delivery -/

/-- Kinds of responses a confirmed notification can receive, as
classified by COVApplicationMixin.confirmation: a simple
acknowledgement, an Error, a RejectPDU, or an AbortPDU. -/
inductive RespKind where
  | simpleAck
  | errorResp
  | rejectResp
  | abortResp
deriving DecidableEq

/-- Per-destination delivery state: the pending sequence of confirmed
notifications (invoke id paired with whether that request has been
handed to the stack), plus histories of the requests transmitted down
the stack, the requests enqueued, and the confirmations delegated to the
application. -/
structure DestQueue where
  queue : List (ℕ × Bool)
  sent : List ℕ
  enq : List ℕ
  delegated : List ℕ
deriving DecidableEq

/-- Initial per-destination state: the defaultdict has no entry, modelled
as an empty pending sequence, and the histories are empty. -/
def emptyDQ : DestQueue := ⟨[], [], [], []⟩

/-- COVApplicationMixin.cov_notification for a confirmed subscription:
append the request to the destination's pending sequence; if it is the
only entry (the sequence was empty before), hand it to the stack,
otherwise leave it queued behind the in-flight request. -/
def covNotification (q : DestQueue) (id : ℕ) : DestQueue :=
  match q.queue with
  | [] => { q with queue := [(id, true)], sent := q.sent ++ [id], enq := q.enq ++ [id] }
  | hd :: tl =>
      { q with queue := (hd :: tl) ++ [(id, false)], enq := q.enq ++ [id] }

/-- Tail of COVApplicationMixin.confirmation after the head was popped
(and possibly the rest deleted by cov_abort): if nothing is pending the
destination entry is released, otherwise the new head is handed to the
stack. -/
def sendNextOrIdle (q : DestQueue) (rest : List (ℕ × Bool)) : DestQueue :=
  match rest with
  | [] => { q with queue := [] }
  | (nid, _) :: rest2 =>
      { q with queue := (nid, true) :: rest2, sent := q.sent ++ [nid] }

/-- COVApplicationMixin.confirmation restricted to one destination: a
confirmation for an untracked destination or one whose invoke id does
not match the queue head is delegated to the application unchanged; a
matching confirmation pops the head, an abort additionally discards the
remaining queued items, and then the next request (if any) is handed to
the stack. -/
def covConfirmation (q : DestQueue) (id : ℕ) (k : RespKind) : DestQueue :=
  match q.queue with
  | [] => { q with delegated := q.delegated ++ [id] }
  | (hid, _) :: rest =>
      if id = hid then
        sendNextOrIdle q (if k = RespKind.abortResp then [] else rest)
      else { q with delegated := q.delegated ++ [id] }

/-- Events the delivery coordinator reacts to: a confirmed notification
for a destination, or an incoming confirmation from a destination. -/
inductive CovEvent where
  | notify (dest id : ℕ)
  | confirm (dest id : ℕ) (k : RespKind)

/-- One dispatch step of COVApplicationMixin: the event touches only the
state of its destination, since the queue is keyed by client address. -/
def covStep (s : ℕ → DestQueue) : CovEvent → (ℕ → DestQueue)
  | CovEvent.notify d id => Function.update s d (covNotification (s d) id)
  | CovEvent.confirm d id k => Function.update s d (covConfirmation (s d) id k)

/-- Run of the delivery coordinator over a list of events from the empty
initial state. -/
def covRun (es : List CovEvent) : ℕ → DestQueue :=
  es.foldl covStep (fun _ => emptyDQ)

/-- Invariant shape of a pending sequence: the head has been handed to
the stack and every entry behind it is still untransmitted. -/
def headTransmitted : List (ℕ × Bool) → Prop
  | [] => True
  | hd :: tl => hd.2 = true ∧ ∀ p ∈ tl, p.2 = false

/-- Invoke ids of a pending sequence. -/
def queueIds (l : List (ℕ × Bool)) : List ℕ := l.map Prod.fst

/-- The id of the in-flight head, if the sequence is nonempty. -/
def sentHead : List (ℕ × Bool) → List ℕ
  | [] => []
  | hd :: _ => [hd.1]

/-- Inductive invariant of one destination: the pending sequence has the
head-transmitted shape, the enqueue history is some already-processed
prefix followed by the pending ids in order, and the transmission
history is a sublist of that prefix extended by the in-flight head. -/
def DQInv (q : DestQueue) : Prop :=
  headTransmitted q.queue ∧
  ∃ pre, q.enq = pre ++ queueIds q.queue ∧
    List.Sublist q.sent (pre ++ sentHead q.queue)

/-- The initial per-destination state satisfies the invariant. -/
lemma dqinv_empty : DQInv emptyDQ := by
  refine ⟨trivial, [], rfl, ?_⟩
  simp [emptyDQ, sentHead]

/-- cov_notification preserves the per-destination invariant. -/
lemma dqinv_notify (q : DestQueue) (id : ℕ) (h : DQInv q) :
    DQInv (covNotification q id) := by
  obtain ⟨hh, pre, henq, hsent⟩ := h
  cases hq : q.queue with
  | nil =>
    rw [hq] at henq hsent
    have hcn : covNotification q id =
        { q with queue := [(id, true)], sent := q.sent ++ [id], enq := q.enq ++ [id] } := by
      unfold covNotification
      rw [hq]
    have hpre : q.enq = pre := by simpa [queueIds] using henq
    have hsent2 : List.Sublist q.sent q.enq := by
      rw [hpre]
      simpa [sentHead] using hsent
    rw [hcn]
    refine ⟨⟨rfl, by simp⟩, q.enq, by simp [queueIds], ?_⟩
    simp only [sentHead]
    exact List.Sublist.append hsent2 (List.Sublist.refl _)
  | cons hd tl =>
    rw [hq] at hh henq hsent
    have hcn : covNotification q id =
        { q with queue := (hd :: tl) ++ [(id, false)], enq := q.enq ++ [id] } := by
      unfold covNotification
      rw [hq]
    obtain ⟨hhb, hht⟩ := hh
    rw [hcn]
    refine ⟨⟨hhb, ?_⟩, pre, ?_, ?_⟩
    · intro p hp
      rcases List.mem_append.mp hp with h1 | h1
      · exact hht p h1
      · have : p = (id, false) := by simpa using h1
        rw [this]
    · rw [henq]
      simp [queueIds]
    · simpa [sentHead] using hsent

/-- The confirmation handler preserves the per-destination invariant. -/
lemma dqinv_confirm (q : DestQueue) (id : ℕ) (k : RespKind) (h : DQInv q) :
    DQInv (covConfirmation q id k) := by
  obtain ⟨hh, pre, henq, hsent⟩ := h
  cases hq : q.queue with
  | nil =>
    have hcc : covConfirmation q id k = { q with delegated := q.delegated ++ [id] } := by
      unfold covConfirmation
      rw [hq]
    rw [hcc]
    exact ⟨hh, pre, henq, hsent⟩
  | cons hd tl =>
    obtain ⟨hid0, hb0⟩ := hd
    rw [hq] at hh henq hsent
    obtain ⟨hhb, hht⟩ := hh
    have hcc : covConfirmation q id k =
        if id = hid0 then
          sendNextOrIdle q (if k = RespKind.abortResp then [] else tl)
        else { q with delegated := q.delegated ++ [id] } := by
      unfold covConfirmation
      rw [hq]
    by_cases hid : id = hid0
    · rw [hcc, if_pos hid]
      have hidle : DQInv (sendNextOrIdle q []) := by
        have hse : sendNextOrIdle q [] = { q with queue := [] } := rfl
        rw [hse]
        refine ⟨trivial, q.enq, by simp [queueIds], ?_⟩
        have hstep : List.Sublist (pre ++ [hid0]) q.enq := by
          rw [henq]
          exact List.Sublist.append_left
            (List.Sublist.cons₂ hid0 (List.nil_sublist _)) pre
        have : List.Sublist q.sent q.enq := by
          refine List.Sublist.trans ?_ hstep
          simpa [sentHead] using hsent
        simpa [sentHead] using this
      by_cases hk : k = RespKind.abortResp
      · rw [if_pos hk]
        exact hidle
      · rw [if_neg hk]
        cases htl : tl with
        | nil => exact hidle
        | cons nd tl2 =>
          obtain ⟨nid, nb⟩ := nd
          have hse : sendNextOrIdle q ((nid, nb) :: tl2) =
              { q with queue := (nid, true) :: tl2, sent := q.sent ++ [nid] } := rfl
          rw [hse]
          rw [htl] at hht henq
          refine ⟨⟨rfl, ?_⟩, pre ++ [hid0], ?_, ?_⟩
          · intro p hp
            exact hht p (List.mem_cons_of_mem _ hp)
          · rw [henq]
            simp [queueIds]
          · have hs1 : List.Sublist q.sent (pre ++ [hid0]) := by
              simpa [sentHead] using hsent
            simp only [sentHead]
            exact List.Sublist.append hs1 (List.Sublist.refl _)
    · rw [hcc, if_neg hid]
      refine ⟨?_, pre, ?_, ?_⟩
      · show headTransmitted q.queue
        rw [hq]
        exact ⟨hhb, hht⟩
      · show q.enq = pre ++ queueIds q.queue
        rw [hq]
        exact henq
      · show List.Sublist q.sent (pre ++ sentHead q.queue)
        rw [hq]
        exact hsent

/-- One dispatch step preserves the invariant at every destination. -/
lemma dqinv_step (s : ℕ → DestQueue) (e : CovEvent) (h : ∀ d, DQInv (s d)) :
    ∀ d, DQInv (covStep s e d) := by
  intro d
  cases e with
  | notify d0 id =>
    by_cases hd : d = d0
    · subst hd
      simp only [covStep, Function.update_same]
      exact dqinv_notify _ _ (h d)
    · simp only [covStep, Function.update_noteq hd]
      exact h d
  | confirm d0 id k =>
    by_cases hd : d = d0
    · subst hd
      simp only [covStep, Function.update_same]
      exact dqinv_confirm _ _ _ (h d)
    · simp only [covStep, Function.update_noteq hd]
      exact h d

/-- Every reachable state of the delivery coordinator satisfies the
per-destination invariant. -/
lemma dqinv_run (es : List CovEvent) : ∀ d, DQInv (covRun es d) := by
  suffices hgen : ∀ (l : List CovEvent) (s : ℕ → DestQueue),
      (∀ d, DQInv (s d)) → ∀ d, DQInv (List.foldl covStep s l d) by
    intro d
    exact hgen es _ (fun _ => dqinv_empty) d
  intro l
  induction l with
  | nil =>
    intro s h d
    exact h d
  | cons e rest ih =>
    intro s h d
    exact ih _ (dqinv_step s e h) d

/-- The id of a queued pair has been handed to the stack iff its flag is
set; auxiliary Boolean predicate for counting in-flight requests. -/
def isInFlight (p : ℕ × Bool) : Bool := p.2

/-- C1: at every reachable state of the delivery coordinator and for
every destination, at most one confirmed notification request is in
flight (transmitted and awaiting acknowledgement), it is the head of the
pending sequence while every entry behind it is queued untransmitted,
and the sequence of requests handed to the stack is a sublist of the
enqueue order, so queued items are transmitted in FIFO order. -/
theorem delivery_serialization_invariant (es : List CovEvent) (d : ℕ) :
    List.countP isInFlight (covRun es d).queue ≤ 1 ∧
    headTransmitted (covRun es d).queue ∧
    List.Sublist (covRun es d).sent (covRun es d).enq := by
  obtain ⟨hh, pre, henq, hsent⟩ := dqinv_run es d
  refine ⟨?_, hh, ?_⟩
  · cases hq : (covRun es d).queue with
    | nil => simp
    | cons hd tl =>
      rw [hq] at hh
      obtain ⟨h1, h2⟩ := hh
      have hzero : List.countP isInFlight tl = 0 := by
        rw [List.countP_eq_zero]
        intro p hp
        simp [isInFlight, h2 p hp]
      rw [List.countP_cons, hzero]
      split <;> omega
  · have hsub : List.Sublist (sentHead (covRun es d).queue)
        (queueIds (covRun es d).queue) := by
      cases hq2 : (covRun es d).queue with
      | nil => exact List.Sublist.refl _
      | cons hd tl =>
        simp only [sentHead, queueIds, List.map_cons]
        exact List.Sublist.cons₂ hd.1 (List.nil_sublist _)
    rw [henq]
    exact hsent.trans (List.Sublist.append_left hsub pre)

/-- C8: when an abort response matching the head of a destination's
pending sequence is processed at a reachable state, every remaining
queued item for that destination is dropped without being handed to the
stack and the destination returns to Idle (its queue entry is
released). -/
theorem abort_drops_pending (es : List CovEvent) (d id : ℕ) (b : Bool)
    (rest : List (ℕ × Bool)) (h : (covRun es d).queue = (id, b) :: rest) :
    (covStep (covRun es) (CovEvent.confirm d id RespKind.abortResp) d).queue = [] ∧
    (covStep (covRun es) (CovEvent.confirm d id RespKind.abortResp) d).sent =
      (covRun es d).sent := by
  have hstep : covStep (covRun es) (CovEvent.confirm d id RespKind.abortResp) d =
      covConfirmation (covRun es d) id RespKind.abortResp := by
    simp only [covStep, Function.update_same]
  have hcc : covConfirmation (covRun es d) id RespKind.abortResp =
      { covRun es d with queue := [] } := by
    unfold covConfirmation
    rw [h]
    simp [sendNextOrIdle]
  rw [hstep, hcc]
  exact ⟨rfl, rfl⟩

/-- C9: a confirmation whose source destination has no pending sequence,
or whose invoke id does not match the head of that destination's pending
sequence, is delegated to the application unchanged and nothing else
happens: the destination's pending sequence, transmission history and
enqueue history are exactly as before, and every other destination's
state is untouched. -/
theorem unmatched_confirmation_delegates (es : List CovEvent) (d id : ℕ)
    (k : RespKind)
    (h : (covRun es d).queue = [] ∨
      ∃ hd rest, (covRun es d).queue = hd :: rest ∧ hd.1 ≠ id) :
    (covStep (covRun es) (CovEvent.confirm d id k) d =
      { covRun es d with delegated := (covRun es d).delegated ++ [id] }) ∧
    ∀ e, e ≠ d → covStep (covRun es) (CovEvent.confirm d id k) e = covRun es e := by
  have hstep : covStep (covRun es) (CovEvent.confirm d id k) d =
      covConfirmation (covRun es d) id k := by
    simp only [covStep, Function.update_same]
  constructor
  · rw [hstep]
    rcases h with h | ⟨hd, rest, hq, hne⟩
    · unfold covConfirmation
      rw [h]
      simp [h]
    · obtain ⟨hid0, hb0⟩ := hd
      have hne2 : ¬ (id = hid0) := by
        intro he
        exact hne (by simpa using he.symm)
      unfold covConfirmation
      rw [hq]
      simp [hne2, hq]
  · intro e he
    simp only [covStep]
    rw [Function.update_noteq he]

/-- C8 witness: after two confirmed notifications queue to destination 2,
an abort matching the in-flight head empties the pending sequence and
transmits nothing further. -/
theorem abort_drops_pending_witness :
    (covStep (covRun [CovEvent.notify 2 5, CovEvent.notify 2 6])
      (CovEvent.confirm 2 5 RespKind.abortResp) 2).queue = [] ∧
    (covStep (covRun [CovEvent.notify 2 5, CovEvent.notify 2 6])
      (CovEvent.confirm 2 5 RespKind.abortResp) 2).sent =
      (covRun [CovEvent.notify 2 5, CovEvent.notify 2 6] 2).sent :=
  abort_drops_pending [CovEvent.notify 2 5, CovEvent.notify 2 6] 2 5 true
    [(6, false)] (by decide)

/-- C9 witness: a confirmation with invoke id 9 while request 7 is in
flight is delegated to the application and leaves the queue unchanged. -/
theorem unmatched_confirmation_witness :
    covStep (covRun [CovEvent.notify 1 7]) (CovEvent.confirm 1 9 RespKind.simpleAck) 1 =
      { covRun [CovEvent.notify 1 7] 1 with
        delegated := (covRun [CovEvent.notify 1 7] 1).delegated ++ [9] } :=
  (unmatched_confirmation_delegates [CovEvent.notify 1 7] 1 9 RespKind.simpleAck
    (Or.inr ⟨(7, true), [], by decide, by decide⟩)).1

/-! ### Subscription cancellation (C10) -/

/-- Python exceptions the cancellation path can raise: the AttributeError
from dereferencing the cleared back-reference, and the ValueError from
list.remove on an absent element. -/
inductive PyErr where
  | attributeError
  | valueError
deriving DecidableEq

/-- Bookkeeping state seen by Subscription.cancel_subscription: the
back-reference to the monitored object (None after destruction), the
object's _cov_subscriptions list and the application's
active_cov_subscriptions list, as lists of subscription identifiers. -/
structure SubLinks where
  objRef : Option ℕ
  objSubs : List ℕ
  activeSubs : List ℕ
deriving DecidableEq

/-- Python list.remove: remove the first occurrence of the element or
raise ValueError when it is absent (SubscriptionList.remove delegates to
it). -/
def listRemove (l : List ℕ) (x : ℕ) : Except PyErr (List ℕ) :=
  if x ∈ l then Except.ok (l.erase x) else Except.error PyErr.valueError

/-- Subscription.cancel_subscription: dereference the back-reference
(AttributeError if it is already None), remove self from the object's
subscription list and from the global active list (ValueError if
absent), then clear the back-reference. -/
def cancelSubscription (self : ℕ) (s : SubLinks) : Except PyErr SubLinks :=
  match s.objRef with
  | none => Except.error PyErr.attributeError
  | some _ =>
    match listRemove s.objSubs self with
    | Except.error e => Except.error e
    | Except.ok l1 =>
      match listRemove s.activeSubs self with
      | Except.error e => Except.error e
      | Except.ok l2 => Except.ok ⟨none, l1, l2⟩

/-- Subscription.process_task: the expiry timer callback just cancels
the subscription through the same path. -/
def processTask (self : ℕ) (s : SubLinks) : Except PyErr SubLinks :=
  cancelSubscription self s

/-- C10: subscription destruction is not idempotent: after a successful
cancellation (by request or by the expiry timer), the back-reference is
None, so a second invocation of the cancellation path raises an
exception (the AttributeError from the cleared back-reference) rather
than being a no-op. -/
theorem cancel_not_idempotent (self : ℕ) (s s1 : SubLinks)
    (h : cancelSubscription self s = Except.ok s1) :
    cancelSubscription self s1 = Except.error PyErr.attributeError ∧
    processTask self s1 = Except.error PyErr.attributeError := by
  have href : s1.objRef = none := by
    unfold cancelSubscription at h
    cases hr : s.objRef with
    | none =>
      rw [hr] at h
      exact absurd h (by simp)
    | some r =>
      rw [hr] at h
      cases h1 : listRemove s.objSubs self with
      | error e =>
        rw [h1] at h
        exact absurd h (by simp)
      | ok l1 =>
        rw [h1] at h
        cases h2 : listRemove s.activeSubs self with
        | error e =>
          rw [h2] at h
          exact absurd h (by simp)
        | ok l2 =>
          rw [h2] at h
          have : (⟨none, l1, l2⟩ : SubLinks) = s1 := by
            simpa using h
          rw [← this]
  constructor
  · unfold cancelSubscription
    rw [href]
  · unfold processTask cancelSubscription
    rw [href]

/-- C10 witness: cancelling subscription 5 from a live state succeeds,
and cancelling again raises. -/
theorem cancel_not_idempotent_witness :
    cancelSubscription 5 ⟨none, [], []⟩ = Except.error PyErr.attributeError ∧
    processTask 5 ⟨none, [], []⟩ = Except.error PyErr.attributeError :=
  cancel_not_idempotent 5 ⟨some 0, [5], [5]⟩ ⟨none, [], []⟩ (by rfl)
